import Mathlib

/-!
Verification of the note-driven trial state synchronization loop of
HumanTrialStateMonitor (src/optuna_monitor/human_trial_monitor.py).

The monitor is embedded shallowly: the external study store is a record of
the narrow read/write contract the code consumes (trial listing, ordinal to
identifier resolution, per-identifier state, note version and note body from
the bulk system attributes, and the state-only study.tell mutation); the
mutable monitor instance state (processed_note_versions and _trial_id_cache)
is explicit and threaded through each function.  Dictionaries are modelled as
association lists read through alookup (first binding wins, insertion
prepends, deletion filters), which matches Python dict get / assignment /
del observationally.  The regex command patterns compiled with re.IGNORECASE
are modelled by a small regular-expression syntax with case-insensitive
literal characters and Brzozowski-derivative matching; Pattern.search is
match-at-any-position.  A call of study.tell that raises is modelled by a
boolean oracle (tellFails); logging is not modelled, but each branch of the
code that only logs is identified by the Outcome value of the engine result.
-/

namespace HumanTrialMonitor

/-- Trial lifecycle states, as in optuna.trial.TrialState. -/
inductive TrialState where
  | waiting
  | running
  | complete
  | pruned
  | failed
deriving DecidableEq, Repr

/-- optuna TrialState.is_finished: every state other than RUNNING and WAITING. -/
def TrialState.is_finished : TrialState → Bool
  | .running => false
  | .waiting => false
  | _ => true

/-- Minimal regular-expression syntax covering the configurable command
patterns compiled with re.IGNORECASE in HumanTrialStateMonitor.__init__. -/
inductive Regex where
  | void
  | eps
  | char (c : Char)
  | seq (r s : Regex)
  | alt (r s : Regex)
  | star (r : Regex)
deriving DecidableEq, Repr

/-- Does the pattern accept the empty word. -/
def Regex.nullable : Regex → Bool
  | .void => false
  | .eps => true
  | .char _ => false
  | .seq r s => r.nullable && s.nullable
  | .alt r s => r.nullable || s.nullable
  | .star _ => true

/-- Brzozowski derivative; character comparison is case-insensitive,
modelling re.IGNORECASE. -/
def Regex.deriv : Regex → Char → Regex
  | .void, _ => .void
  | .eps, _ => .void
  | .char c, d => if c.toLower = d.toLower then .eps else .void
  | .seq r s, d => if r.nullable then .alt (.seq (r.deriv d) s) (s.deriv d) else .seq (r.deriv d) s
  | .alt r s, d => .alt (r.deriv d) (s.deriv d)
  | .star r, d => .seq (r.deriv d) (.star r)

/-- Does some (possibly empty) front segment of the character list match. -/
def Regex.matchesHere : Regex → List Char → Bool
  | r, [] => r.nullable
  | r, c :: cs => r.nullable || (r.deriv c).matchesHere cs

/-- Pattern.search over a character list: match starting at any position. -/
def Regex.searchList : Regex → List Char → Bool
  | r, [] => r.nullable
  | r, c :: cs => r.matchesHere (c :: cs) || r.searchList cs

/-- Python re.Pattern.search as used on the note body (None-ness only). -/
def Regex.search (r : Regex) (s : String) : Bool :=
  r.searchList s.data

/-- The pattern made of the literal characters of a word; the default
command patterns are literalPat applied to PRUNE and to FAIL. -/
def literalPat (s : String) : Regex :=
  s.data.foldr (fun c r => Regex.seq (.char c) r) .eps

/-- Result of classifying a note body, spec section 4.1. -/
inductive Command where
  | none
  | prune
  | fail
deriving DecidableEq, Repr

/-- Monitor configuration: the constructor arguments of
HumanTrialStateMonitor that the core loop reads. -/
structure Config where
  prunePat : Regex
  failPat : Regex
  dry_run : Bool
  only_active_trials : Bool

/-- The if/elif chain of _check_and_process_trial lines 200-205:
prune_pattern.search is consulted first, fail_pattern.search only when the
prune pattern did not match. -/
def parse_command (cfg : Config) (body : String) : Command :=
  if cfg.prunePat.search body then .prune
  else if cfg.failPat.search body then .fail
  else .none

/-- Association list lookup with first-binding-wins, modelling Python dict
reads (insertion is modelled by prepending a binding). -/
def alookup {α : Type} : List (Nat × α) → Nat → Option α
  | [], _ => none
  | (k, v) :: rest, n => if k = n then some v else alookup rest n

/-- The monitor instance state owned by the change detector and the identity
resolver: processed_note_versions and _trial_id_cache. -/
structure MonitorState where
  processed_note_versions : List (Nat × Int)
  trial_id_cache : List (Nat × Nat)
deriving DecidableEq, Repr

/-- One trial as returned by study.get_trials: its ordinal number and the
state frozen at the moment of listing. -/
structure Trial where
  number : Nat
  state : TrialState
deriving DecidableEq, Repr

/-- The external study store, reduced to the narrow contract the monitor
consumes: the ordinals present in the study, ordinal-to-identifier
resolution, per-identifier stored state, and the note version and body that
the bulk system attributes hold for each identifier (the .get default 0 for
a missing version key is folded into noteVersion). -/
structure Store where
  numbers : List Nat
  resolveId : Nat → Option Nat
  stateOf : Nat → Option TrialState
  noteVersion : Nat → Nat
  noteBody : Nat → String

/-- processed_note_versions.get(trial_number, -1); line 185. -/
def lastSeen (m : List (Nat × Int)) (n : Nat) : Int :=
  (alookup m n).getD (-1)

/-- Method _get_trial_id: consult _trial_id_cache first, else resolve through the
storage and cache a successful resolution; on failure return None. -/
def get_trial_id (st : MonitorState) (store : Store) (n : Nat) :
    Option Nat × MonitorState :=
  match alookup st.trial_id_cache n with
  | some tid => (some tid, st)
  | none =>
    match store.resolveId n with
    | some tid => (some tid, { st with trial_id_cache := (n, tid) :: st.trial_id_cache })
    | none => (none, st)

/-- Method _get_trial_state_from_storage: re-read the current state of a trial
directly from the store through its resolved identifier. -/
def get_trial_state_from_storage (st : MonitorState) (store : Store) (n : Nat) :
    Option TrialState × MonitorState :=
  match get_trial_id st store n with
  | (some tid, st1) => (store.stateOf tid, st1)
  | (none, st1) => (none, st1)

/-- Transition outcome, spec section 4.3.  The code only logs; the mapping
is: could-not-determine-state and a raising study.tell are failed, the
already-in-target early return is alreadyInState, the cannot-change warning
is illegal, and the dry-run log line and the post-tell path are applied. -/
inductive Outcome where
  | applied
  | alreadyInState
  | illegal
  | failed
deriving DecidableEq, Repr

/-- Result of one _change_trial_state call: the threaded monitor state and
store, the outcome, whether study.tell was invoked, and whether the
post-mutation verification re-read was reached. -/
structure ChangeResult where
  state : MonitorState
  store : Store
  outcome : Outcome
  tellCalled : Bool
  verifyRead : Bool

/-- The states from which study.tell may move a trial; line 259. -/
def changeable : List TrialState :=
  [.running, .waiting, .complete]

/-- study.tell(trial_number, state=new_state, values=None): set the stored
state of the trial with that ordinal. -/
def Store.tell (store : Store) (n : Nat) (s : TrialState) : Store :=
  match store.resolveId n with
  | some tid =>
    { store with stateOf := fun i => if i = tid then some s else store.stateOf i }
  | none => store

/-- Method _change_trial_state, lines 242-286.  tellFails models study.tell
raising; in that case the code logs the error and returns before the
verification re-read. -/
def change_trial_state (cfg : Config) (tellFails : Bool) (n : Nat)
    (new_state : TrialState) (st : MonitorState) (store : Store) : ChangeResult :=
  match get_trial_state_from_storage st store n with
  | (none, st1) => ⟨st1, store, .failed, false, false⟩
  | (some current_state, st1) =>
    if current_state = new_state then
      ⟨st1, store, .alreadyInState, false, false⟩
    else if !(changeable.contains current_state) then
      ⟨st1, store, .illegal, false, false⟩
    else if cfg.dry_run then
      ⟨st1, store, .applied, false, false⟩
    else if tellFails then
      ⟨st1, store, .failed, true, false⟩
    else
      let store1 := store.tell n new_state
      let verify := get_trial_state_from_storage st1 store1 n
      ⟨verify.2, store1, .applied, true, true⟩

/-- Observable result of processing one trial in a cycle: the threaded
monitor state and store, the transition-engine invocations made (trial
number and target state), and the trial numbers for which study.tell was
issued. -/
structure StepResult where
  state : MonitorState
  store : Store
  attempts : List (Nat × TrialState)
  tells : List Nat

/-- Invoke the transition engine for a detected command (lines 202 and 205)
and record the invocation. -/
def applyCommand (cfg : Config) (tellFails : Bool) (n : Nat) (target : TrialState)
    (st : MonitorState) (store : Store) : StepResult :=
  let c := change_trial_state cfg tellFails n target st store
  ⟨c.state, c.store, [(n, target)], if c.tellCalled then [n] else []⟩

/-- The version-guarded body of _check_and_process_trial, lines 184-208:
compare the note version against the last processed one, skip the startup
special case of an empty initial note, dispatch the parsed command, and
record the processed version afterwards (also when no command was found). -/
def processNote (cfg : Config) (tellFails : Bool) (trial : Trial) (tid : Nat)
    (st : MonitorState) (store : Store) : StepResult :=
  let current_note_version : Int := (store.noteVersion tid : Int)
  let last_processed_version : Int := lastSeen st.processed_note_versions trial.number
  if last_processed_version < current_note_version then
    let note_body := store.noteBody tid
    if note_body = "" ∧ last_processed_version = -1 ∧ current_note_version = 0 then
      ⟨st, store, [], []⟩
    else
      let r :=
        match parse_command cfg note_body with
        | .prune => applyCommand cfg tellFails trial.number .pruned st store
        | .fail => applyCommand cfg tellFails trial.number .failed st store
        | .none => ⟨st, store, [], []⟩
      { r with state := { r.state with
          processed_note_versions :=
            (trial.number, current_note_version) :: r.state.processed_note_versions } }
  else ⟨st, store, [], []⟩

/-- Lines 210-212: drop the _trial_id_cache entry of a trial whose listed
(snapshot) state is finished. -/
def evictFinished (trial : Trial) (r : StepResult) : StepResult :=
  if trial.state.is_finished && (alookup r.state.trial_id_cache trial.number).isSome then
    { r with state := { r.state with
        trial_id_cache := r.state.trial_id_cache.filter (fun p => !(p.1 == trial.number)) } }
  else r

/-- Method _check_and_process_trial, lines 167-216: resolve the identifier (return
silently when that fails), run the version-guarded note processing, then the
finished-trial cache cleanup. -/
def check_and_process_trial (cfg : Config) (tellFails : Bool) (trial : Trial)
    (st : MonitorState) (store : Store) : StepResult :=
  match get_trial_id st store trial.number with
  | (none, st1) => ⟨st1, store, [], []⟩
  | (some tid, st1) => evictFinished trial (processNote cfg tellFails trial tid st1 store)

/-- Lines 139-145: the states whose trials are checked this cycle. -/
def changeable_states (cfg : Config) : List TrialState :=
  if cfg.only_active_trials then [.running, .waiting]
  else [.running, .waiting, .complete]

/-- study.get_trials at the start of a cycle: each listed ordinal paired
with the state stored at listing time (a frozen snapshot). -/
def Store.listing (store : Store) : List Trial :=
  store.numbers.filterMap (fun n =>
    match store.resolveId n with
    | some tid =>
      match store.stateOf tid with
      | some s => some ⟨n, s⟩
      | none => none
    | none => none)

/-- Line 147: the listed trials whose snapshot state is changeable. -/
def trials_to_check (cfg : Config) (store : Store) : List Trial :=
  store.listing.filter (fun t => (changeable_states cfg).contains t.state)

/-- The per-trial loop of check_for_note_changes, lines 155-161; a failure
while processing one trial does not abort the siblings. -/
def processTrials (cfg : Config) (tellFails : Nat → Bool) :
    List Trial → MonitorState → Store → StepResult
  | [], st, store => ⟨st, store, [], []⟩
  | t :: ts, st, store =>
    let r := check_and_process_trial cfg (tellFails t.number) t st store
    let rr := processTrials cfg tellFails ts r.state r.store
    ⟨rr.state, rr.store, r.attempts ++ rr.attempts, r.tells ++ rr.tells⟩

/-- check_for_note_changes, lines 115-165: one full detector cycle over the
filtered trial listing. -/
def check_for_note_changes (cfg : Config) (tellFails : Nat → Bool)
    (st : MonitorState) (store : Store) : StepResult :=
  processTrials cfg tellFails (trials_to_check cfg store) st store

/-- k consecutive detector cycles, the store evolving only through the
mutations the monitor itself issues (no intervening external edit). -/
def iterateCycles (cfg : Config) (tellFails : Nat → Bool) :
    Nat → MonitorState → Store → MonitorState × Store
  | 0, st, store => (st, store)
  | k + 1, st, store =>
    let r := check_for_note_changes cfg tellFails st store
    iterateCycles cfg tellFails k r.state r.store

/-- A sequence of detector cycles against an externally supplied sequence of
observed store snapshots, tracking only the monitor detection state. -/
def runSnapshots (cfg : Config) (tellFails : Nat → Bool) :
    List Store → MonitorState → MonitorState
  | [], st => st
  | store :: rest, st =>
    runSnapshots cfg tellFails rest (check_for_note_changes cfg tellFails st store).state

/-- Every cached ordinal-to-identifier binding agrees with what the store
resolves; holds for the empty cache the monitor starts with and is preserved
by every cycle. -/
def CacheConsistent (cache : List (Nat × Nat)) (res : Nat → Option Nat) : Prop :=
  ∀ n tid, alookup cache n = some tid → res n = some tid

/-- A trial ordinal is settled for note values (v, b) in a monitor state:
either the version is no newer than the recorded one, or it is the startup
special case of version 0 with an empty body and no recorded entry. -/
def SettledVals (st : MonitorState) (n : Nat) (v : Nat) (b : String) : Prop :=
  (v : Int) ≤ lastSeen st.processed_note_versions n ∨
    (b = "" ∧ lastSeen st.processed_note_versions n = -1 ∧ v = 0)

/-- Two stores equal on everything a detector decision reads except the
mutable per-identifier state. -/
def SameShape (s1 s2 : Store) : Prop :=
  s1.numbers = s2.numbers ∧ s1.resolveId = s2.resolveId ∧
    s1.noteVersion = s2.noteVersion ∧ s1.noteBody = s2.noteBody

/-- Default PRUNE pattern. -/
def pat_PRUNE : Regex := literalPat "PRUNE"

/-- Default FAIL pattern. -/
def pat_FAIL : Regex := literalPat "FAIL"

/-- Live-mode configuration with the default patterns. -/
def cfg0 : Config := ⟨pat_PRUNE, pat_FAIL, false, false⟩

/-- Dry-run configuration with the default patterns. -/
def cfgDry : Config := ⟨pat_PRUNE, pat_FAIL, true, false⟩

/-- The fresh monitor state: both maps empty. -/
def st0 : MonitorState := ⟨[], []⟩

/-- One RUNNING trial, ordinal 0 and identifier 0, whose note was edited to
the body PRUNE at version 1. -/
def store0 : Store where
  numbers := [0]
  resolveId := fun n => if n = 0 then some 0 else none
  stateOf := fun i => if i = 0 then some .running else none
  noteVersion := fun i => if i = 0 then 1 else 0
  noteBody := fun i => if i = 0 then "PRUNE" else ""

/-- store0 with the trial already PRUNED in storage. -/
def storeTerminal : Store :=
  { store0 with stateOf := fun i => if i = 0 then some TrialState.pruned else none }

/-- store0 with a note body matching both default patterns. -/
def storeBoth : Store :=
  { store0 with noteBody := fun i => if i = 0 then "please PRUNE, do not FAIL" else "" }

/-- Monitor state that has already recorded version 1 for ordinal 0. -/
def stSeen : MonitorState := ⟨[(0, 1)], []⟩

/-- store0 with a note body that contains no recognized command. -/
def storeNoCmd : Store :=
  { store0 with noteBody := fun i => if i = 0 then "looks fine so far" else "" }

/-! ### Helper lemmas about the association-list maps -/

theorem alookup_filter_ne {α : Type} (l : List (Nat × α)) (m n : Nat) :
    alookup (l.filter (fun p => !(p.1 == m))) n = if m = n then none else alookup l n := by
  induction l with
  | nil => by_cases h : m = n <;> simp [alookup, h]
  | cons p rest ih =>
    obtain ⟨k, v⟩ := p
    rw [List.filter_cons]
    by_cases hkm : k = m
    · rw [if_neg (by simp [hkm])]
      rw [ih]
      by_cases hmn : m = n
      · simp [hmn]
      · have hkn : ¬ k = n := by rw [hkm]; exact hmn
        simp [alookup, hmn, hkn]
    · rw [if_pos (by simp [hkm])]
      by_cases hkn : k = n
      · have hmn : ¬ m = n := fun h => hkm (by rw [hkn, ← h])
        simp [alookup, hkn, hmn]
      · simp only [alookup, if_neg hkn]
        exact ih

/-! ### Helper lemmas about _get_trial_id -/

theorem gti_of_cache {st : MonitorState} {n tid : Nat} (store : Store)
    (h : alookup st.trial_id_cache n = some tid) :
    get_trial_id st store n = (some tid, st) := by
  unfold get_trial_id
  rw [h]

theorem gti_of_miss_some {st : MonitorState} {store : Store} {n tid : Nat}
    (hc : alookup st.trial_id_cache n = none) (hr : store.resolveId n = some tid) :
    get_trial_id st store n =
      (some tid, { st with trial_id_cache := (n, tid) :: st.trial_id_cache }) := by
  unfold get_trial_id
  rw [hc, hr]

theorem gti_of_miss_none {st : MonitorState} {store : Store} {n : Nat}
    (hc : alookup st.trial_id_cache n = none) (hr : store.resolveId n = none) :
    get_trial_id st store n = (none, st) := by
  unfold get_trial_id
  rw [hc, hr]

theorem gti_processed (st : MonitorState) (store : Store) (n : Nat) :
    (get_trial_id st store n).2.processed_note_versions = st.processed_note_versions := by
  rcases h : alookup st.trial_id_cache n with _ | tid
  · rcases hr : store.resolveId n with _ | tid
    · rw [gti_of_miss_none h hr]
    · rw [gti_of_miss_some h hr]
  · rw [gti_of_cache store h]

theorem gti_fst_of_cc {st : MonitorState} {store : Store} (n : Nat)
    (hcc : CacheConsistent st.trial_id_cache store.resolveId) :
    (get_trial_id st store n).1 = store.resolveId n := by
  rcases h : alookup st.trial_id_cache n with _ | tid
  · rcases hr : store.resolveId n with _ | tid
    · simp [gti_of_miss_none h hr]
    · simp [gti_of_miss_some h hr]
  · rw [gti_of_cache store h]
    simp [hcc n tid h]

theorem gti_cc {st : MonitorState} {store : Store} (n : Nat)
    (hcc : CacheConsistent st.trial_id_cache store.resolveId) :
    CacheConsistent (get_trial_id st store n).2.trial_id_cache store.resolveId := by
  rcases h : alookup st.trial_id_cache n with _ | tid
  · rcases hr : store.resolveId n with _ | tid
    · rw [gti_of_miss_none h hr]
      exact hcc
    · rw [gti_of_miss_some h hr]
      intro m tid2 hm
      simp only [alookup] at hm
      by_cases hnm : n = m
      · subst hnm
        rw [if_pos rfl] at hm
        cases hm
        exact hr
      · rw [if_neg hnm] at hm
        exact hcc m tid2 hm
  · rw [gti_of_cache store h]
    exact hcc

theorem gti_cache_lookup {st : MonitorState} {store : Store} {n tid : Nat}
    (h : (get_trial_id st store n).1 = some tid) :
    alookup (get_trial_id st store n).2.trial_id_cache n = some tid := by
  rcases hc : alookup st.trial_id_cache n with _ | tid1
  · rcases hr : store.resolveId n with _ | tid1
    · rw [gti_of_miss_none hc hr] at h
      cases h
    · rw [gti_of_miss_some hc hr] at h ⊢
      have h2 : tid1 = tid := Option.some.inj h
      subst h2
      simp [alookup]
  · rw [gti_of_cache store hc] at h ⊢
    have h2 : tid1 = tid := Option.some.inj h
    subst h2
    exact hc

/-! ### Helper lemmas about _get_trial_state_from_storage -/

theorem gtsfs_snd (st : MonitorState) (store : Store) (n : Nat) :
    (get_trial_state_from_storage st store n).2 = (get_trial_id st store n).2 := by
  unfold get_trial_state_from_storage
  rcases h : get_trial_id st store n with ⟨_ | tid, st1⟩ <;> simp [h]

theorem gtsfs_some {st st1 : MonitorState} {store : Store} {n : Nat} {cur : TrialState}
    (h : get_trial_state_from_storage st store n = (some cur, st1)) :
    ∃ tid, get_trial_id st store n = (some tid, st1) ∧ store.stateOf tid = some cur := by
  unfold get_trial_state_from_storage at h
  rcases hg : get_trial_id st store n with ⟨tid?, st2⟩
  rw [hg] at h
  cases tid? with
  | none => simp at h
  | some tid =>
    simp only [Prod.mk.injEq] at h
    obtain ⟨h1, h2⟩ := h
    exact ⟨tid, by rw [h2], h1⟩

/-! ### Shape lemmas: which store fields a mutation can touch -/

theorem sameShape_refl (s : Store) : SameShape s s :=
  ⟨Eq.refl _, Eq.refl _, Eq.refl _, Eq.refl _⟩

theorem sameShape_trans {a b c : Store} (h1 : SameShape a b) (h2 : SameShape b c) :
    SameShape a c :=
  ⟨h1.1.trans h2.1, h1.2.1.trans h2.2.1, h1.2.2.1.trans h2.2.2.1, h1.2.2.2.trans h2.2.2.2⟩

theorem tell_shape (store : Store) (n : Nat) (s : TrialState) :
    SameShape (store.tell n s) store := by
  unfold Store.tell
  rcases store.resolveId n with _ | tid
  · exact sameShape_refl store
  · exact ⟨rfl, rfl, rfl, rfl⟩

theorem tell_stateOf (store : Store) (n : Nat) (s : TrialState) (i : Nat) :
    (store.tell n s).stateOf i = store.stateOf i ∨ (store.tell n s).stateOf i = some s := by
  unfold Store.tell
  rcases store.resolveId n with _ | tid
  · exact Or.inl rfl
  · by_cases hi : i = tid
    · right
      simp [hi]
    · left
      simp [hi]

/-! ### Helper lemmas about _change_trial_state -/

theorem cts_state (cfg : Config) (tfb : Bool) (n : Nat) (s : TrialState)
    (st : MonitorState) (store : Store) :
    (change_trial_state cfg tfb n s st store).state = (get_trial_id st store n).2 := by
  unfold change_trial_state
  rcases h : get_trial_state_from_storage st store n with ⟨cur?, st1⟩
  have hsnd : st1 = (get_trial_id st store n).2 := by
    have h2 := gtsfs_snd st store n
    rw [h] at h2
    exact h2
  cases cur? with
  | none => exact hsnd
  | some cur =>
    simp only
    split_ifs
    · exact hsnd
    · exact hsnd
    · exact hsnd
    · exact hsnd
    · obtain ⟨tid, hgti, _⟩ := gtsfs_some h
      have hlk : alookup st1.trial_id_cache n = some tid := by
        have := @gti_cache_lookup st store n tid (by rw [hgti])
        rw [hgti] at this
        exact this
      rw [gtsfs_snd, gti_of_cache _ hlk]
      exact hsnd

theorem cts_processed (cfg : Config) (tfb : Bool) (n : Nat) (s : TrialState)
    (st : MonitorState) (store : Store) :
    (change_trial_state cfg tfb n s st store).state.processed_note_versions =
      st.processed_note_versions := by
  rw [cts_state, gti_processed]

theorem cts_cc {cfg : Config} {tfb : Bool} {n : Nat} {s : TrialState}
    {st : MonitorState} {store : Store}
    (hcc : CacheConsistent st.trial_id_cache store.resolveId) :
    CacheConsistent (change_trial_state cfg tfb n s st store).state.trial_id_cache
      store.resolveId := by
  rw [cts_state]
  exact gti_cc n hcc

theorem cts_shape (cfg : Config) (tfb : Bool) (n : Nat) (s : TrialState)
    (st : MonitorState) (store : Store) :
    SameShape (change_trial_state cfg tfb n s st store).store store := by
  unfold change_trial_state
  rcases h : get_trial_state_from_storage st store n with ⟨cur?, st1⟩
  cases cur? with
  | none => exact sameShape_refl store
  | some cur =>
    simp only
    split_ifs
    · exact sameShape_refl store
    · exact sameShape_refl store
    · exact sameShape_refl store
    · exact sameShape_refl store
    · exact tell_shape store n s

theorem cts_stateOf (cfg : Config) (tfb : Bool) (n : Nat) (s : TrialState)
    (st : MonitorState) (store : Store) (i : Nat) :
    (change_trial_state cfg tfb n s st store).store.stateOf i = store.stateOf i ∨
      (change_trial_state cfg tfb n s st store).store.stateOf i = some s := by
  unfold change_trial_state
  rcases h : get_trial_state_from_storage st store n with ⟨cur?, st1⟩
  cases cur? with
  | none => exact Or.inl rfl
  | some cur =>
    simp only
    split_ifs
    · exact Or.inl rfl
    · exact Or.inl rfl
    · exact Or.inl rfl
    · exact Or.inl rfl
    · exact tell_stateOf store n s i

theorem cts_store_dry {cfg : Config} (tfb : Bool) (n : Nat) (s : TrialState)
    (st : MonitorState) (store : Store) (hdry : cfg.dry_run = true) :
    (change_trial_state cfg tfb n s st store).store = store := by
  unfold change_trial_state
  rcases h : get_trial_state_from_storage st store n with ⟨cur?, st1⟩
  cases cur? with
  | none => rfl
  | some cur =>
    simp only
    split_ifs with h1 h2 <;> rfl

theorem cts_eq_of_read {cfg : Config} {tfb : Bool} {n : Nat} {s : TrialState}
    {st st1 : MonitorState} {store : Store} {cur : TrialState}
    (h : get_trial_state_from_storage st store n = (some cur, st1)) :
    change_trial_state cfg tfb n s st store =
      (if cur = s then ⟨st1, store, .alreadyInState, false, false⟩
       else if !(changeable.contains cur) then ⟨st1, store, .illegal, false, false⟩
       else if cfg.dry_run then ⟨st1, store, .applied, false, false⟩
       else if tfb then ⟨st1, store, .failed, true, false⟩
       else
         let store1 := store.tell n s
         let verify := get_trial_state_from_storage st1 store1 n
         ⟨verify.2, store1, .applied, true, true⟩) := by
  unfold change_trial_state
  rw [h]

/-! ### Helper lemmas about the per-trial note processing -/

theorem evict_processed (t : Trial) (r : StepResult) :
    (evictFinished t r).state.processed_note_versions = r.state.processed_note_versions := by
  unfold evictFinished
  split_ifs <;> rfl

theorem evict_store (t : Trial) (r : StepResult) : (evictFinished t r).store = r.store := by
  unfold evictFinished
  split_ifs <;> rfl

theorem evict_attempts (t : Trial) (r : StepResult) :
    (evictFinished t r).attempts = r.attempts := by
  unfold evictFinished
  split_ifs <;> rfl

theorem evict_tells (t : Trial) (r : StepResult) : (evictFinished t r).tells = r.tells := by
  unfold evictFinished
  split_ifs <;> rfl

theorem evict_cc {t : Trial} {r : StepResult} {res : Nat → Option Nat}
    (hcc : CacheConsistent r.state.trial_id_cache res) :
    CacheConsistent (evictFinished t r).state.trial_id_cache res := by
  unfold evictFinished
  split_ifs with h
  · intro m tid hm
    simp only at hm
    rw [alookup_filter_ne] at hm
    by_cases hnm : t.number = m
    · rw [if_pos hnm] at hm
      cases hm
    · rw [if_neg hnm] at hm
      exact hcc m tid hm
  · exact hcc

theorem pn_eq_skip {cfg : Config} {tfb : Bool} {trial : Trial} {tid : Nat}
    {st : MonitorState} {store : Store}
    (hv : ¬ lastSeen st.processed_note_versions trial.number < (store.noteVersion tid : Int)) :
    processNote cfg tfb trial tid st store = ⟨st, store, [], []⟩ := by
  unfold processNote
  rw [if_neg hv]

theorem pn_eq_special {cfg : Config} {tfb : Bool} {trial : Trial} {tid : Nat}
    {st : MonitorState} {store : Store}
    (hv : lastSeen st.processed_note_versions trial.number < (store.noteVersion tid : Int))
    (hsp : store.noteBody tid = "" ∧ lastSeen st.processed_note_versions trial.number = -1 ∧
      (store.noteVersion tid : Int) = 0) :
    processNote cfg tfb trial tid st store = ⟨st, store, [], []⟩ := by
  unfold processNote
  rw [if_pos hv, if_pos hsp]

theorem pn_eq_main {cfg : Config} {tfb : Bool} {trial : Trial} {tid : Nat}
    {st : MonitorState} {store : Store}
    (hv : lastSeen st.processed_note_versions trial.number < (store.noteVersion tid : Int))
    (hnsp : ¬(store.noteBody tid = "" ∧ lastSeen st.processed_note_versions trial.number = -1 ∧
      (store.noteVersion tid : Int) = 0)) :
    processNote cfg tfb trial tid st store =
      (let r :=
        match parse_command cfg (store.noteBody tid) with
        | .prune => applyCommand cfg tfb trial.number .pruned st store
        | .fail => applyCommand cfg tfb trial.number .failed st store
        | .none => ⟨st, store, [], []⟩
       { r with state := { r.state with
          processed_note_versions :=
            (trial.number, (store.noteVersion tid : Int)) :: r.state.processed_note_versions } }) := by
  unfold processNote
  rw [if_pos hv, if_neg hnsp]

theorem ac_state_processed (cfg : Config) (tfb : Bool) (n : Nat) (target : TrialState)
    (st : MonitorState) (store : Store) :
    (applyCommand cfg tfb n target st store).state.processed_note_versions =
      st.processed_note_versions :=
  cts_processed cfg tfb n target st store

theorem pn_processed_cases (cfg : Config) (tfb : Bool) (trial : Trial) (tid : Nat)
    (st : MonitorState) (store : Store) :
    (processNote cfg tfb trial tid st store).state.processed_note_versions =
        st.processed_note_versions ∨
      ((processNote cfg tfb trial tid st store).state.processed_note_versions =
          (trial.number, (store.noteVersion tid : Int)) :: st.processed_note_versions ∧
        lastSeen st.processed_note_versions trial.number < (store.noteVersion tid : Int)) := by
  by_cases hv : lastSeen st.processed_note_versions trial.number < (store.noteVersion tid : Int)
  · by_cases hsp : store.noteBody tid = "" ∧
        lastSeen st.processed_note_versions trial.number = -1 ∧
        (store.noteVersion tid : Int) = 0
    · rw [pn_eq_special hv hsp]
      exact Or.inl rfl
    · rw [pn_eq_main hv hsp]
      right
      refine ⟨?_, hv⟩
      rcases hp : parse_command cfg (store.noteBody tid) with _ | _ | _ <;>
        simp only [hp] <;>
        simp [ac_state_processed]
  · rw [pn_eq_skip hv]
    exact Or.inl rfl

theorem step_processed_cases (cfg : Config) (tfb : Bool) (trial : Trial)
    (st : MonitorState) (store : Store) :
    (check_and_process_trial cfg tfb trial st store).state.processed_note_versions =
        st.processed_note_versions ∨
      ((check_and_process_trial cfg tfb trial st store).state.processed_note_versions =
          (trial.number, (store.noteVersion ((get_trial_id st store trial.number).1.getD 0) : Int)) ::
            st.processed_note_versions ∧
        lastSeen st.processed_note_versions trial.number <
          (store.noteVersion ((get_trial_id st store trial.number).1.getD 0) : Int)) := by
  unfold check_and_process_trial
  rcases hg : get_trial_id st store trial.number with ⟨tid?, st1⟩
  have hp1 : st1.processed_note_versions = st.processed_note_versions := by
    have := gti_processed st store trial.number
    rw [hg] at this
    exact this
  cases tid? with
  | none => exact Or.inl hp1
  | some tid =>
    rw [evict_processed]
    have := pn_processed_cases cfg tfb trial tid st1 store
    rw [hp1] at this
    rcases this with h | ⟨h1, h2⟩
    · exact Or.inl h
    · right
      exact ⟨h1, h2⟩

theorem lastSeen_cons_self (m : List (Nat × Int)) (n : Nat) (v : Int) :
    lastSeen ((n, v) :: m) n = v := by
  simp [lastSeen, alookup]

theorem lastSeen_cons_other (m : List (Nat × Int)) {n k : Nat} (v : Int) (h : ¬ n = k) :
    lastSeen ((n, v) :: m) k = lastSeen m k := by
  simp [lastSeen, alookup, h]

theorem step_processed_mono (cfg : Config) (tfb : Bool) (trial : Trial)
    (st : MonitorState) (store : Store) (m : Nat) :
    lastSeen st.processed_note_versions m ≤
      lastSeen (check_and_process_trial cfg tfb trial st store).state.processed_note_versions m := by
  rcases step_processed_cases cfg tfb trial st store with h | ⟨h1, h2⟩
  · rw [h]
  · rw [h1]
    by_cases hm : trial.number = m
    · rw [← hm, lastSeen_cons_self]
      rw [← hm] at *
      exact le_of_lt h2
    · rw [lastSeen_cons_other _ _ hm]

theorem step_eq_none {cfg : Config} {tfb : Bool} {trial : Trial}
    {st st1 : MonitorState} {store : Store}
    (hg : get_trial_id st store trial.number = (none, st1)) :
    check_and_process_trial cfg tfb trial st store = ⟨st1, store, [], []⟩ := by
  unfold check_and_process_trial
  rw [hg]

theorem step_eq_some {cfg : Config} {tfb : Bool} {trial : Trial} {tid : Nat}
    {st st1 : MonitorState} {store : Store}
    (hg : get_trial_id st store trial.number = (some tid, st1)) :
    check_and_process_trial cfg tfb trial st store =
      evictFinished trial (processNote cfg tfb trial tid st1 store) := by
  unfold check_and_process_trial
  rw [hg]

theorem pn_cc {cfg : Config} {tfb : Bool} {trial : Trial} {tid : Nat}
    {st : MonitorState} {store : Store}
    (hcc : CacheConsistent st.trial_id_cache store.resolveId) :
    CacheConsistent (processNote cfg tfb trial tid st store).state.trial_id_cache
      store.resolveId := by
  by_cases hv : lastSeen st.processed_note_versions trial.number < (store.noteVersion tid : Int)
  · by_cases hsp : store.noteBody tid = "" ∧
        lastSeen st.processed_note_versions trial.number = -1 ∧
        (store.noteVersion tid : Int) = 0
    · rw [pn_eq_special hv hsp]
      exact hcc
    · rw [pn_eq_main hv hsp]
      rcases hp : parse_command cfg (store.noteBody tid) with _ | _ | _ <;> simp only [hp]
      · exact hcc
      · exact cts_cc hcc
      · exact cts_cc hcc
  · rw [pn_eq_skip hv]
    exact hcc

theorem pn_shape (cfg : Config) (tfb : Bool) (trial : Trial) (tid : Nat)
    (st : MonitorState) (store : Store) :
    SameShape (processNote cfg tfb trial tid st store).store store := by
  by_cases hv : lastSeen st.processed_note_versions trial.number < (store.noteVersion tid : Int)
  · by_cases hsp : store.noteBody tid = "" ∧
        lastSeen st.processed_note_versions trial.number = -1 ∧
        (store.noteVersion tid : Int) = 0
    · rw [pn_eq_special hv hsp]
      exact sameShape_refl store
    · rw [pn_eq_main hv hsp]
      rcases hp : parse_command cfg (store.noteBody tid) with _ | _ | _ <;> simp only [hp]
      · exact sameShape_refl store
      · exact cts_shape cfg tfb trial.number .pruned st store
      · exact cts_shape cfg tfb trial.number .failed st store
  · rw [pn_eq_skip hv]
    exact sameShape_refl store

theorem pn_stateOf (cfg : Config) (tfb : Bool) (trial : Trial) (tid : Nat)
    (st : MonitorState) (store : Store) (i : Nat) :
    (processNote cfg tfb trial tid st store).store.stateOf i = store.stateOf i ∨
      (processNote cfg tfb trial tid st store).store.stateOf i = some .pruned ∨
      (processNote cfg tfb trial tid st store).store.stateOf i = some .failed := by
  by_cases hv : lastSeen st.processed_note_versions trial.number < (store.noteVersion tid : Int)
  · by_cases hsp : store.noteBody tid = "" ∧
        lastSeen st.processed_note_versions trial.number = -1 ∧
        (store.noteVersion tid : Int) = 0
    · rw [pn_eq_special hv hsp]
      exact Or.inl rfl
    · rw [pn_eq_main hv hsp]
      rcases hp : parse_command cfg (store.noteBody tid) with _ | _ | _
      · exact Or.inl rfl
      · rcases cts_stateOf cfg tfb trial.number .pruned st store i with h | h
        · exact Or.inl h
        · exact Or.inr (Or.inl h)
      · rcases cts_stateOf cfg tfb trial.number .failed st store i with h | h
        · exact Or.inl h
        · exact Or.inr (Or.inr h)
  · rw [pn_eq_skip hv]
    exact Or.inl rfl

theorem pn_store_dry {cfg : Config} (tfb : Bool) (trial : Trial) (tid : Nat)
    (st : MonitorState) (store : Store) (hdry : cfg.dry_run = true) :
    (processNote cfg tfb trial tid st store).store = store := by
  by_cases hv : lastSeen st.processed_note_versions trial.number < (store.noteVersion tid : Int)
  · by_cases hsp : store.noteBody tid = "" ∧
        lastSeen st.processed_note_versions trial.number = -1 ∧
        (store.noteVersion tid : Int) = 0
    · rw [pn_eq_special hv hsp]
    · rw [pn_eq_main hv hsp]
      rcases hp : parse_command cfg (store.noteBody tid) with _ | _ | _
      · rfl
      · exact cts_store_dry tfb trial.number .pruned st store hdry
      · exact cts_store_dry tfb trial.number .failed st store hdry
  · rw [pn_eq_skip hv]

theorem pn_lastSeen_recorded {cfg : Config} {tfb : Bool} {trial : Trial} {tid : Nat}
    {st : MonitorState} {store : Store}
    (hv : lastSeen st.processed_note_versions trial.number < (store.noteVersion tid : Int))
    (hnsp : ¬(store.noteBody tid = "" ∧ lastSeen st.processed_note_versions trial.number = -1 ∧
      (store.noteVersion tid : Int) = 0)) :
    lastSeen (processNote cfg tfb trial tid st store).state.processed_note_versions
      trial.number = (store.noteVersion tid : Int) := by
  rw [pn_eq_main hv hnsp]
  rcases hp : parse_command cfg (store.noteBody tid) with _ | _ | _ <;>
    exact lastSeen_cons_self _ _ _

theorem step_cc {cfg : Config} {tfb : Bool} {trial : Trial}
    {st : MonitorState} {store : Store}
    (hcc : CacheConsistent st.trial_id_cache store.resolveId) :
    CacheConsistent (check_and_process_trial cfg tfb trial st store).state.trial_id_cache
      store.resolveId := by
  rcases hg : get_trial_id st store trial.number with ⟨tid?, st1⟩
  have h1 : CacheConsistent st1.trial_id_cache store.resolveId := by
    have := @gti_cc st store trial.number hcc
    rw [hg] at this
    exact this
  cases tid? with
  | none =>
    rw [step_eq_none hg]
    exact h1
  | some tid =>
    rw [step_eq_some hg]
    exact evict_cc (pn_cc h1)

theorem step_shape (cfg : Config) (tfb : Bool) (trial : Trial)
    (st : MonitorState) (store : Store) :
    SameShape (check_and_process_trial cfg tfb trial st store).store store := by
  rcases hg : get_trial_id st store trial.number with ⟨tid?, st1⟩
  cases tid? with
  | none =>
    rw [step_eq_none hg]
    exact sameShape_refl store
  | some tid =>
    rw [step_eq_some hg, evict_store]
    exact pn_shape cfg tfb trial tid st1 store

theorem step_stateOf (cfg : Config) (tfb : Bool) (trial : Trial)
    (st : MonitorState) (store : Store) (i : Nat) :
    (check_and_process_trial cfg tfb trial st store).store.stateOf i = store.stateOf i ∨
      (check_and_process_trial cfg tfb trial st store).store.stateOf i = some .pruned ∨
      (check_and_process_trial cfg tfb trial st store).store.stateOf i = some .failed := by
  rcases hg : get_trial_id st store trial.number with ⟨tid?, st1⟩
  cases tid? with
  | none =>
    rw [step_eq_none hg]
    exact Or.inl rfl
  | some tid =>
    rw [step_eq_some hg, evict_store]
    exact pn_stateOf cfg tfb trial tid st1 store i

theorem step_store_dry {cfg : Config} (tfb : Bool) (trial : Trial)
    (st : MonitorState) (store : Store) (hdry : cfg.dry_run = true) :
    (check_and_process_trial cfg tfb trial st store).store = store := by
  rcases hg : get_trial_id st store trial.number with ⟨tid?, st1⟩
  cases tid? with
  | none => rw [step_eq_none hg]
  | some tid =>
    rw [step_eq_some hg, evict_store]
    exact pn_store_dry tfb trial tid st1 store hdry

theorem step_lastSeen_recorded {cfg : Config} {tfb : Bool} {trial : Trial} {tid : Nat}
    {st : MonitorState} {store : Store}
    (hid : (get_trial_id st store trial.number).1 = some tid)
    (hv : lastSeen st.processed_note_versions trial.number < (store.noteVersion tid : Int))
    (hnsp : ¬(store.noteBody tid = "" ∧ lastSeen st.processed_note_versions trial.number = -1 ∧
      (store.noteVersion tid : Int) = 0)) :
    lastSeen (check_and_process_trial cfg tfb trial st store).state.processed_note_versions
      trial.number = (store.noteVersion tid : Int) := by
  rcases hg : get_trial_id st store trial.number with ⟨tid?, st1⟩
  have hp1 : st1.processed_note_versions = st.processed_note_versions := by
    have := gti_processed st store trial.number
    rw [hg] at this
    exact this
  rw [hg] at hid
  simp only [Prod.fst] at hid
  cases tid? with
  | none => cases hid
  | some tid1 =>
    have h2 : tid1 = tid := Option.some.inj hid
    subst h2
    rw [step_eq_some hg]
    have := @pn_lastSeen_recorded cfg tfb trial tid1 st1 store
      (by rw [hp1]; exact hv) (by rw [hp1]; exact hnsp)
    calc lastSeen (evictFinished trial (processNote cfg tfb trial tid1 st1 store)).state.processed_note_versions trial.number
        = lastSeen (processNote cfg tfb trial tid1 st1 store).state.processed_note_versions trial.number := by
          rw [evict_processed]
      _ = (store.noteVersion tid1 : Int) := this

theorem step_attempts_nil_of_le {cfg : Config} {tfb : Bool} {trial : Trial} {tid : Nat}
    {st : MonitorState} {store : Store}
    (hid : (get_trial_id st store trial.number).1 = some tid)
    (hle : (store.noteVersion tid : Int) ≤ lastSeen st.processed_note_versions trial.number) :
    (check_and_process_trial cfg tfb trial st store).attempts = [] := by
  rcases hg : get_trial_id st store trial.number with ⟨tid?, st1⟩
  have hp1 : st1.processed_note_versions = st.processed_note_versions := by
    have := gti_processed st store trial.number
    rw [hg] at this
    exact this
  rw [hg] at hid
  simp only [Prod.fst] at hid
  cases tid? with
  | none => cases hid
  | some tid1 =>
    have h2 : tid1 = tid := Option.some.inj hid
    subst h2
    rw [step_eq_some hg, evict_attempts, pn_eq_skip (by rw [hp1]; exact not_lt.mpr hle)]

theorem step_lastSeen_other {cfg : Config} {tfb : Bool} {trial : Trial}
    {st : MonitorState} {store : Store} {n : Nat} (h : ¬ trial.number = n) :
    lastSeen (check_and_process_trial cfg tfb trial st store).state.processed_note_versions n =
      lastSeen st.processed_note_versions n := by
  rcases step_processed_cases cfg tfb trial st store with h1 | ⟨h1, _⟩
  · rw [h1]
  · rw [h1, lastSeen_cons_other _ _ h]

theorem step_settles {cfg : Config} {tfb : Bool} {trial : Trial} {tid : Nat}
    {st : MonitorState} {store : Store}
    (hcc : CacheConsistent st.trial_id_cache store.resolveId)
    (hres : store.resolveId trial.number = some tid) :
    SettledVals (check_and_process_trial cfg tfb trial st store).state trial.number
      (store.noteVersion tid) (store.noteBody tid) := by
  have hid : (get_trial_id st store trial.number).1 = some tid := by
    rw [gti_fst_of_cc trial.number hcc]
    exact hres
  rcases hg : get_trial_id st store trial.number with ⟨tid?, st1⟩
  have hp1 : st1.processed_note_versions = st.processed_note_versions := by
    have := gti_processed st store trial.number
    rw [hg] at this
    exact this
  rw [hg] at hid
  simp only [Prod.fst] at hid
  cases tid? with
  | none => cases hid
  | some tid1 =>
    have h2 : tid1 = tid := Option.some.inj hid
    subst h2
    rw [step_eq_some hg]
    unfold SettledVals
    rw [evict_processed]
    by_cases hv : lastSeen st1.processed_note_versions trial.number <
        (store.noteVersion tid1 : Int)
    · by_cases hsp : store.noteBody tid1 = "" ∧
          lastSeen st1.processed_note_versions trial.number = -1 ∧
          (store.noteVersion tid1 : Int) = 0
      · rw [pn_eq_special hv hsp]
        right
        refine ⟨hsp.1, hsp.2.1, ?_⟩
        exact_mod_cast hsp.2.2
    
      · left
        rw [pn_lastSeen_recorded hv hsp]
    · left
      rw [pn_eq_skip hv]
      exact not_lt.mp hv

theorem step_preserves_settled {cfg : Config} {tfb : Bool} {t : Trial}
    {st : MonitorState} {store : Store} {n tid : Nat}
    (hcc : CacheConsistent st.trial_id_cache store.resolveId)
    (hres : store.resolveId n = some tid)
    (hst : SettledVals st n (store.noteVersion tid) (store.noteBody tid)) :
    SettledVals (check_and_process_trial cfg tfb t st store).state n
      (store.noteVersion tid) (store.noteBody tid) := by
  by_cases h : t.number = n
  · have hres2 : store.resolveId t.number = some tid := by
      rw [h]
      exact hres
    have := @step_settles cfg tfb t tid st store hcc hres2
    rw [h] at this
    exact this
  · unfold SettledVals at hst ⊢
    rw [step_lastSeen_other h]
    exact hst

theorem step_skip_of_settled {cfg : Config} {tfb : Bool} {t : Trial} {tid : Nat}
    {st : MonitorState} {store : Store}
    (hcc : CacheConsistent st.trial_id_cache store.resolveId)
    (hres : store.resolveId t.number = some tid)
    (hst : SettledVals st t.number (store.noteVersion tid) (store.noteBody tid)) :
    (check_and_process_trial cfg tfb t st store).attempts = [] := by
  have hid : (get_trial_id st store t.number).1 = some tid := by
    rw [gti_fst_of_cc t.number hcc]
    exact hres
  rcases hst with hle | ⟨hb, hl, hv0⟩
  · exact step_attempts_nil_of_le hid hle
  · rcases hg : get_trial_id st store t.number with ⟨tid?, st1⟩
    have hp1 : st1.processed_note_versions = st.processed_note_versions := by
      have := gti_processed st store t.number
      rw [hg] at this
      exact this
    rw [hg] at hid
    simp only [Prod.fst] at hid
    cases tid? with
    | none => cases hid
    | some tid1 =>
      have h2 : tid1 = tid := Option.some.inj hid
      subst h2
      rw [step_eq_some hg, evict_attempts,
        pn_eq_special (by rw [hp1, hl, hv0]; decide)
          ⟨hb, by rw [hp1]; exact hl, by rw [hv0]; decide⟩]

theorem fold_nil (cfg : Config) (tf : Nat → Bool) (st : MonitorState) (store : Store) :
    processTrials cfg tf [] st store = ⟨st, store, [], []⟩ := rfl

theorem fold_cons (cfg : Config) (tf : Nat → Bool) (t : Trial) (ts : List Trial)
    (st : MonitorState) (store : Store) :
    processTrials cfg tf (t :: ts) st store =
      (let r := check_and_process_trial cfg (tf t.number) t st store
       let rr := processTrials cfg tf ts r.state r.store
       ⟨rr.state, rr.store, r.attempts ++ rr.attempts, r.tells ++ rr.tells⟩) := rfl

theorem fold_processed_mono (cfg : Config) (tf : Nat → Bool) (l : List Trial) :
    ∀ (st : MonitorState) (store : Store) (m : Nat),
      lastSeen st.processed_note_versions m ≤
        lastSeen (processTrials cfg tf l st store).state.processed_note_versions m := by
  induction l with
  | nil => intro st store m; exact le_refl _
  | cons t ts ih =>
    intro st store m
    exact le_trans (step_processed_mono cfg (tf t.number) t st store m)
      (ih _ _ m)

theorem fold_shape (cfg : Config) (tf : Nat → Bool) (l : List Trial) :
    ∀ (st : MonitorState) (store : Store),
      SameShape (processTrials cfg tf l st store).store store := by
  induction l with
  | nil => intro st store; exact sameShape_refl store
  | cons t ts ih =>
    intro st store
    exact sameShape_trans (ih _ _) (step_shape cfg (tf t.number) t st store)

theorem fold_cc (cfg : Config) (tf : Nat → Bool) (res : Nat → Option Nat) (l : List Trial) :
    ∀ (st : MonitorState) (store : Store), store.resolveId = res →
      CacheConsistent st.trial_id_cache res →
      CacheConsistent (processTrials cfg tf l st store).state.trial_id_cache res := by
  induction l with
  | nil => intro st store _ hcc; exact hcc
  | cons t ts ih =>
    intro st store hres hcc
    refine ih _ _ ?_ ?_
    · rw [(step_shape cfg (tf t.number) t st store).2.1, hres]
    · have := @step_cc cfg (tf t.number) t st store (by rw [hres]; exact hcc)
      rw [hres] at this
      exact this

theorem fold_stateOf (cfg : Config) (tf : Nat → Bool) (l : List Trial) :
    ∀ (st : MonitorState) (store : Store) (i : Nat),
      (processTrials cfg tf l st store).store.stateOf i = store.stateOf i ∨
        (processTrials cfg tf l st store).store.stateOf i = some .pruned ∨
        (processTrials cfg tf l st store).store.stateOf i = some .failed := by
  induction l with
  | nil => intro st store i; exact Or.inl rfl
  | cons t ts ih =>
    intro st store i
    rcases ih (check_and_process_trial cfg (tf t.number) t st store).state
      (check_and_process_trial cfg (tf t.number) t st store).store i with h | h | h
    · rw [fold_cons]
      simp only
      rw [h]
      exact step_stateOf cfg (tf t.number) t st store i
    · exact Or.inr (Or.inl h)
    · exact Or.inr (Or.inr h)

theorem fold_store_dry {cfg : Config} (tf : Nat → Bool) (l : List Trial)
    (hdry : cfg.dry_run = true) :
    ∀ (st : MonitorState) (store : Store),
      (processTrials cfg tf l st store).store = store := by
  induction l with
  | nil => intro st store; rfl
  | cons t ts ih =>
    intro st store
    show (processTrials cfg tf ts _ _).store = store
    rw [ih _ _]
    exact step_store_dry (tf t.number) t st store hdry

theorem fold_settles (cfg : Config) (tf : Nat → Bool) (res : Nat → Option Nat)
    (nv : Nat → Nat) (nb : Nat → String) (n tid : Nat) (htid : res n = some tid)
    (l : List Trial) :
    ∀ (st : MonitorState) (store : Store), store.resolveId = res →
      store.noteVersion = nv → store.noteBody = nb →
      CacheConsistent st.trial_id_cache res →
      ((∃ t ∈ l, t.number = n) ∨ SettledVals st n (nv tid) (nb tid)) →
      SettledVals (processTrials cfg tf l st store).state n (nv tid) (nb tid) := by
  induction l with
  | nil =>
    intro st store _ _ _ _ hpre
    rcases hpre with ⟨t, ht, _⟩ | hst
    · cases ht
    · exact hst
  | cons t ts ih =>
    intro st store hres hnv hnb hcc hpre
    have hshape := step_shape cfg (tf t.number) t st store
    have hcc2 : CacheConsistent
        (check_and_process_trial cfg (tf t.number) t st store).state.trial_id_cache res := by
      have := @step_cc cfg (tf t.number) t st store (by rw [hres]; exact hcc)
      rw [hres] at this
      exact this
    rcases hpre with ⟨t1, ht1, ht1n⟩ | hst
    · rcases List.mem_cons.mp ht1 with h1 | h1
      · have htn : t.number = n := by rw [← h1]; exact ht1n
        have hres2 : store.resolveId t.number = some tid := by
          rw [hres, htn]
          exact htid
        have hcc1 : CacheConsistent st.trial_id_cache store.resolveId := by
          rw [hres]
          exact hcc
        have hsettle := @step_settles cfg (tf t.number) t tid st store hcc1 hres2
        rw [hnv, hnb] at hsettle
        have hsettle2 : SettledVals
            (check_and_process_trial cfg (tf t.number) t st store).state n
            (nv tid) (nb tid) := by
          rw [← htn]
          exact hsettle
        exact ih _ _ (by rw [hshape.2.1, hres]) (by rw [hshape.2.2.1, hnv])
          (by rw [hshape.2.2.2, hnb]) hcc2 (Or.inr hsettle2)
      · exact ih _ _ (by rw [hshape.2.1, hres]) (by rw [hshape.2.2.1, hnv])
          (by rw [hshape.2.2.2, hnb]) hcc2 (Or.inl ⟨t1, h1, ht1n⟩)
    · refine ih _ _ (by rw [hshape.2.1, hres]) (by rw [hshape.2.2.1, hnv])
        (by rw [hshape.2.2.2, hnb]) hcc2 (Or.inr ?_)
      have := @step_preserves_settled cfg (tf t.number) t st store n tid
        (by rw [hres]; exact hcc) (by rw [hres]; exact htid)
        (by rw [hnv, hnb]; exact hst)
      rw [hnv, hnb] at this
      exact this

theorem fold_skip (cfg : Config) (tf : Nat → Bool) (res : Nat → Option Nat)
    (nv : Nat → Nat) (nb : Nat → String) (l : List Trial) :
    ∀ (st : MonitorState) (store : Store), store.resolveId = res →
      store.noteVersion = nv → store.noteBody = nb →
      CacheConsistent st.trial_id_cache res →
      (∀ t ∈ l, ∃ tid, res t.number = some tid ∧
        SettledVals st t.number (nv tid) (nb tid)) →
      (processTrials cfg tf l st store).attempts = [] := by
  induction l with
  | nil => intro st store _ _ _ _ _; rfl
  | cons t ts ih =>
    intro st store hres hnv hnb hcc hall
    obtain ⟨tid, htid, hst⟩ := hall t (List.mem_cons_self t ts)
    have hshape := step_shape cfg (tf t.number) t st store
    have hcc1 : CacheConsistent st.trial_id_cache store.resolveId := by
      rw [hres]; exact hcc
    have h1 : (check_and_process_trial cfg (tf t.number) t st store).attempts = [] :=
      step_skip_of_settled hcc1 (by rw [hres]; exact htid)
        (by rw [hnv, hnb]; exact hst)
    have hcc2 : CacheConsistent
        (check_and_process_trial cfg (tf t.number) t st store).state.trial_id_cache res := by
      have := @step_cc cfg (tf t.number) t st store hcc1
      rw [hres] at this
      exact this
    have h2 : (processTrials cfg tf ts
        (check_and_process_trial cfg (tf t.number) t st store).state
        (check_and_process_trial cfg (tf t.number) t st store).store).attempts = [] := by
      refine ih _ _ (by rw [hshape.2.1, hres]) (by rw [hshape.2.2.1, hnv])
        (by rw [hshape.2.2.2, hnb]) hcc2 ?_
      intro t1 ht1
      obtain ⟨tid1, htid1, hst1⟩ := hall t1 (List.mem_cons_of_mem t ht1)
      refine ⟨tid1, htid1, ?_⟩
      have := @step_preserves_settled cfg (tf t.number) t st store t1.number tid1
        hcc1 (by rw [hres]; exact htid1) (by rw [hnv, hnb]; exact hst1)
      rw [hnv, hnb] at this
      exact this
    rw [fold_cons]
    simp only
    rw [h1, h2]
    rfl

theorem sameShape_symm {a b : Store} (h : SameShape a b) : SameShape b a :=
  ⟨h.1.symm, h.2.1.symm, h.2.2.1.symm, h.2.2.2.symm⟩

theorem mem_trials_to_check {cfg : Config} {store : Store} {t : Trial} :
    t ∈ trials_to_check cfg store ↔
      ∃ tid, t.number ∈ store.numbers ∧ store.resolveId t.number = some tid ∧
        store.stateOf tid = some t.state ∧
        (changeable_states cfg).contains t.state = true := by
  unfold trials_to_check Store.listing
  rw [List.mem_filter, List.mem_filterMap]
  constructor
  · rintro ⟨⟨n, hn, hf⟩, hcs⟩
    rcases hr : store.resolveId n with _ | tid
    · rw [hr] at hf
      cases hf
    · rw [hr] at hf
      dsimp only at hf
      rcases hs : store.stateOf tid with _ | s
      · rw [hs] at hf
        cases hf
      · rw [hs] at hf
        dsimp only at hf
        have h2 : (⟨n, s⟩ : Trial) = t := Option.some.inj hf
        subst h2
        exact ⟨tid, hn, hr, hs, hcs⟩
  · rintro ⟨tid, hn, hr, hs, hcs⟩
    refine ⟨⟨t.number, hn, ?_⟩, hcs⟩
    rw [hr]
    dsimp only
    rw [hs]

theorem changeable_not_terminal {cfg : Config} {s : TrialState}
    (h : (changeable_states cfg).contains s = true) :
    ¬ s = TrialState.pruned ∧ ¬ s = TrialState.failed := by
  constructor <;> rintro rfl <;> revert h <;>
    by_cases ho : cfg.only_active_trials <;>
    simp [changeable_states, ho]

/-! ### The monitor detection state does not depend on the dry_run flag -/

theorem gti_congr {s1 s2 : Store} (h : s1.resolveId = s2.resolveId)
    (st : MonitorState) (n : Nat) : get_trial_id st s1 n = get_trial_id st s2 n := by
  unfold get_trial_id
  rw [h]

theorem parse_dry (cfg : Config) (x : Bool) (body : String) :
    parse_command { cfg with dry_run := x } body = parse_command cfg body := rfl

theorem ac_state (cfg : Config) (tfb : Bool) (n : Nat) (target : TrialState)
    (st : MonitorState) (store : Store) :
    (applyCommand cfg tfb n target st store).state = (get_trial_id st store n).2 :=
  cts_state cfg tfb n target st store

theorem pn_state_char (cfg : Config) (tfb : Bool) (trial : Trial) (tid : Nat)
    (st : MonitorState) (store : Store) :
    (processNote cfg tfb trial tid st store).state =
      (if lastSeen st.processed_note_versions trial.number < (store.noteVersion tid : Int) then
        if store.noteBody tid = "" ∧ lastSeen st.processed_note_versions trial.number = -1 ∧
            (store.noteVersion tid : Int) = 0 then st
        else
          let base :=
            match parse_command cfg (store.noteBody tid) with
            | .none => st
            | _ => (get_trial_id st store trial.number).2
          { base with processed_note_versions :=
              (trial.number, (store.noteVersion tid : Int)) :: base.processed_note_versions }
      else st) := by
  by_cases hv : lastSeen st.processed_note_versions trial.number < (store.noteVersion tid : Int)
  · by_cases hsp : store.noteBody tid = "" ∧
        lastSeen st.processed_note_versions trial.number = -1 ∧
        (store.noteVersion tid : Int) = 0
    · rw [pn_eq_special hv hsp, if_pos hv, if_pos hsp]
    · rw [pn_eq_main hv hsp, if_pos hv, if_neg hsp]
      rcases hp : parse_command cfg (store.noteBody tid) with _ | _ | _
      · rfl
      · dsimp only
        rw [ac_state]
      · dsimp only
        rw [ac_state]
  · rw [pn_eq_skip hv, if_neg hv]

theorem pn_state_indep (cfg : Config) (a b tfb1 tfb2 : Bool) (trial : Trial) (tid : Nat)
    (st : MonitorState) (s1 s2 : Store) (hsh : SameShape s1 s2) :
    (processNote { cfg with dry_run := a } tfb1 trial tid st s1).state =
      (processNote { cfg with dry_run := b } tfb2 trial tid st s2).state := by
  rw [pn_state_char, pn_state_char, hsh.2.2.1, hsh.2.2.2,
    gti_congr hsh.2.1 st trial.number, parse_dry cfg a (s2.noteBody tid),
    parse_dry cfg b (s2.noteBody tid)]

theorem evict_state_char (t : Trial) (r : StepResult) :
    (evictFinished t r).state =
      if t.state.is_finished && (alookup r.state.trial_id_cache t.number).isSome then
        { r.state with trial_id_cache :=
            r.state.trial_id_cache.filter (fun p => !(p.1 == t.number)) }
      else r.state := by
  unfold evictFinished
  split_ifs <;> rfl

theorem step_state_indep (cfg : Config) (a b tfb1 tfb2 : Bool) (t : Trial)
    (st : MonitorState) (s1 s2 : Store) (hsh : SameShape s1 s2) :
    (check_and_process_trial { cfg with dry_run := a } tfb1 t st s1).state =
      (check_and_process_trial { cfg with dry_run := b } tfb2 t st s2).state := by
  have hg := gti_congr hsh.2.1 st t.number
  rcases hg1 : get_trial_id st s1 t.number with ⟨tid?, st1⟩
  have hg2 : get_trial_id st s2 t.number = (tid?, st1) := by rw [← hg, hg1]
  cases tid? with
  | none => rw [step_eq_none hg1, step_eq_none hg2]
  | some tid =>
    rw [step_eq_some hg1, step_eq_some hg2, evict_state_char, evict_state_char,
      pn_state_indep cfg a b tfb1 tfb2 t tid st1 s1 s2 hsh]

theorem fold_state_indep (cfg : Config) (a b : Bool) (tf : Nat → Bool) (l : List Trial) :
    ∀ (st : MonitorState) (s1 s2 : Store), SameShape s1 s2 →
      (processTrials { cfg with dry_run := a } tf l st s1).state =
        (processTrials { cfg with dry_run := b } tf l st s2).state := by
  induction l with
  | nil => intro st s1 s2 _; rfl
  | cons t ts ih =>
    intro st s1 s2 hsh
    show (processTrials _ tf ts _ _).state = (processTrials _ tf ts _ _).state
    rw [step_state_indep cfg a b (tf t.number) (tf t.number) t st s1 s2 hsh]
    apply ih
    exact sameShape_trans
      (step_shape { cfg with dry_run := a } (tf t.number) t st s1)
      (sameShape_trans hsh
        (sameShape_symm (step_shape { cfg with dry_run := b } (tf t.number) t st s2)))

theorem cycle_state_indep (cfg : Config) (a b : Bool) (tf : Nat → Bool)
    (st : MonitorState) (store : Store) :
    (check_for_note_changes { cfg with dry_run := a } tf st store).state =
      (check_for_note_changes { cfg with dry_run := b } tf st store).state := by
  unfold check_for_note_changes
  have hl : trials_to_check { cfg with dry_run := a } store =
      trials_to_check { cfg with dry_run := b } store := rfl
  rw [hl]
  exact fold_state_indep cfg a b tf _ st store store (sameShape_refl store)

/-! ### Cycle-level lemmas -/

theorem cacheConsistent_nil (res : Nat → Option Nat) : CacheConsistent [] res := by
  intro n tid h
  simp [alookup] at h

theorem cycle_shape (cfg : Config) (tf : Nat → Bool) (st : MonitorState) (store : Store) :
    SameShape (check_for_note_changes cfg tf st store).store store :=
  fold_shape cfg tf (trials_to_check cfg store) st store

theorem cycle_cc {cfg : Config} {tf : Nat → Bool} {st : MonitorState} {store : Store}
    (hcc : CacheConsistent st.trial_id_cache store.resolveId) :
    CacheConsistent (check_for_note_changes cfg tf st store).state.trial_id_cache
      store.resolveId :=
  fold_cc cfg tf store.resolveId (trials_to_check cfg store) st store rfl hcc

theorem cycle_stateOf (cfg : Config) (tf : Nat → Bool) (st : MonitorState) (store : Store)
    (i : Nat) :
    (check_for_note_changes cfg tf st store).store.stateOf i = store.stateOf i ∨
      (check_for_note_changes cfg tf st store).store.stateOf i = some .pruned ∨
      (check_for_note_changes cfg tf st store).store.stateOf i = some .failed :=
  fold_stateOf cfg tf (trials_to_check cfg store) st store i

theorem cycle_store_dry {cfg : Config} (tf : Nat → Bool) (st : MonitorState) (store : Store)
    (hdry : cfg.dry_run = true) :
    (check_for_note_changes cfg tf st store).store = store :=
  fold_store_dry tf (trials_to_check cfg store) hdry st store

theorem cycle_processed_mono (cfg : Config) (tf : Nat → Bool) (st : MonitorState)
    (store : Store) (m : Nat) :
    lastSeen st.processed_note_versions m ≤
      lastSeen (check_for_note_changes cfg tf st store).state.processed_note_versions m :=
  fold_processed_mono cfg tf (trials_to_check cfg store) st store m

theorem iterate_store_dry {cfg : Config} (tf : Nat → Bool) (hdry : cfg.dry_run = true) :
    ∀ (k : Nat) (st : MonitorState) (store : Store),
      (iterateCycles cfg tf k st store).2 = store := by
  intro k
  induction k with
  | zero => intro st store; rfl
  | succ k ih =>
    intro st store
    show (iterateCycles cfg tf k _ _).2 = store
    rw [cycle_store_dry tf st store hdry]
    exact ih _ _

theorem iterate_processed_mono (cfg : Config) (tf : Nat → Bool) :
    ∀ (k : Nat) (st : MonitorState) (store : Store) (m : Nat),
      lastSeen st.processed_note_versions m ≤
        lastSeen (iterateCycles cfg tf k st store).1.processed_note_versions m := by
  intro k
  induction k with
  | zero => intro st store m; exact le_refl _
  | succ k ih =>
    intro st store m
    exact le_trans (cycle_processed_mono cfg tf st store m) (ih _ _ m)

theorem snapshots_processed_mono (cfg : Config) (tf : Nat → Bool) :
    ∀ (l : List Store) (st : MonitorState) (m : Nat),
      lastSeen st.processed_note_versions m ≤
        lastSeen (runSnapshots cfg tf l st).processed_note_versions m := by
  intro l
  induction l with
  | nil => intro st m; exact le_refl _
  | cons store rest ih =>
    intro st m
    exact le_trans (cycle_processed_mono cfg tf st store m) (ih _ m)

theorem runSnapshots_indep (cfg : Config) (a b : Bool) (tf : Nat → Bool) :
    ∀ (l : List Store) (st : MonitorState),
      runSnapshots { cfg with dry_run := a } tf l st =
        runSnapshots { cfg with dry_run := b } tf l st := by
  intro l
  induction l with
  | nil => intro st; rfl
  | cons store rest ih =>
    intro st
    show runSnapshots _ tf rest _ = runSnapshots _ tf rest _
    rw [cycle_state_indep cfg a b tf st store]
    exact ih _

theorem cycle_settles_member (cfg : Config) (tf : Nat → Bool) (st : MonitorState)
    (store : Store) (t : Trial) (tid : Nat)
    (hcc : CacheConsistent st.trial_id_cache store.resolveId)
    (htmem : t ∈ trials_to_check cfg store)
    (htid : store.resolveId t.number = some tid) :
    SettledVals (check_for_note_changes cfg tf st store).state t.number
      (store.noteVersion tid) (store.noteBody tid) :=
  fold_settles cfg tf store.resolveId store.noteVersion store.noteBody t.number tid htid
    (trials_to_check cfg store) st store rfl rfl rfl hcc (Or.inl ⟨t, htmem, rfl⟩)

theorem cycle_idempotent (cfg : Config) (tf : Nat → Bool) (st : MonitorState) (store : Store)
    (hcc : CacheConsistent st.trial_id_cache store.resolveId) :
    (check_for_note_changes cfg tf (check_for_note_changes cfg tf st store).state
      (check_for_note_changes cfg tf st store).store).attempts = [] := by
  have hshape := cycle_shape cfg tf st store
  show (processTrials cfg tf
    (trials_to_check cfg (check_for_note_changes cfg tf st store).store)
    (check_for_note_changes cfg tf st store).state
    (check_for_note_changes cfg tf st store).store).attempts = []
  refine fold_skip cfg tf store.resolveId store.noteVersion store.noteBody _ _ _
    hshape.2.1 hshape.2.2.1 hshape.2.2.2 (cycle_cc hcc) ?_
  intro t ht
  obtain ⟨tid, hn, hr, hs, hcs⟩ := mem_trials_to_check.mp ht
  rw [hshape.2.1] at hr
  have hnt := changeable_not_terminal hcs
  have hs0 : store.stateOf tid = some t.state := by
    rcases cycle_stateOf cfg tf st store tid with h | h | h
    · rw [h] at hs
      exact hs
    · rw [h] at hs
      exact absurd (Option.some.inj hs).symm hnt.1
    · rw [h] at hs
      exact absurd (Option.some.inj hs).symm hnt.2
  have hn0 : t.number ∈ store.numbers := by
    rw [← hshape.1]
    exact hn
  have htmem : t ∈ trials_to_check cfg store :=
    mem_trials_to_check.mpr ⟨tid, hn0, hr, hs0, hcs⟩
  exact ⟨tid, hr, cycle_settles_member cfg tf st store t tid hcc htmem hr⟩

theorem pn_attempts_prune {cfg : Config} {tfb : Bool} {trial : Trial} {tid : Nat}
    {st : MonitorState} {store : Store}
    (hv : lastSeen st.processed_note_versions trial.number < (store.noteVersion tid : Int))
    (hns : ¬(store.noteBody tid = "" ∧ lastSeen st.processed_note_versions trial.number = -1 ∧
      (store.noteVersion tid : Int) = 0))
    (hcmd : parse_command cfg (store.noteBody tid) = Command.prune) :
    (processNote cfg tfb trial tid st store).attempts = [(trial.number, TrialState.pruned)] := by
  rw [pn_eq_main hv hns]
  dsimp only
  rw [hcmd]
  rfl

theorem step_attempts_prune {cfg : Config} {tfb : Bool} {trial : Trial} {tid : Nat}
    {st : MonitorState} {store : Store}
    (hid : (get_trial_id st store trial.number).1 = some tid)
    (hv : lastSeen st.processed_note_versions trial.number < (store.noteVersion tid : Int))
    (hns : ¬(store.noteBody tid = "" ∧ lastSeen st.processed_note_versions trial.number = -1 ∧
      (store.noteVersion tid : Int) = 0))
    (hcmd : parse_command cfg (store.noteBody tid) = Command.prune) :
    (check_and_process_trial cfg tfb trial st store).attempts =
      [(trial.number, TrialState.pruned)] := by
  rcases hg : get_trial_id st store trial.number with ⟨tid?, st1⟩
  have hp1 : st1.processed_note_versions = st.processed_note_versions := by
    have := gti_processed st store trial.number
    rw [hg] at this
    exact this
  rw [hg] at hid
  simp only [Prod.fst] at hid
  cases tid? with
  | none => cases hid
  | some tid1 =>
    have h2 : tid1 = tid := Option.some.inj hid
    subst h2
    rw [step_eq_some hg, evict_attempts,
      pn_attempts_prune (by rw [hp1]; exact hv) (by rw [hp1]; exact hns) hcmd]

/-! ### Claim theorems -/

/-- C1: for every trial and fixed annotation_version, the transition engine is
invoked at most once for that trial at that version across detector cycles with
no intervening edit: re-polling a version already recorded in
processed_note_versions produces no transition attempt, and a second detector
call immediately after a first produces zero transition attempts. -/
theorem C1_at_most_once_per_version (cfg : Config) (tf : Nat → Bool) (st : MonitorState)
    (store : Store) (trial : Trial) (tid : Nat)
    (hcc : CacheConsistent st.trial_id_cache store.resolveId)
    (hid : (get_trial_id st store trial.number).1 = some tid)
    (hle : (store.noteVersion tid : Int) ≤ lastSeen st.processed_note_versions trial.number) :
    (check_and_process_trial cfg (tf trial.number) trial st store).attempts = [] ∧
      (check_for_note_changes cfg tf (check_for_note_changes cfg tf st store).state
        (check_for_note_changes cfg tf st store).store).attempts = [] :=
  ⟨step_attempts_nil_of_le hid hle, cycle_idempotent cfg tf st store hcc⟩

/-- Witness for C1 at a concrete input: version 1 already recorded for the one
trial, so its per-trial check makes no attempt, and a second detector cycle
right after a first makes zero attempts. -/
theorem C1_witness :
    CacheConsistent stSeen.trial_id_cache store0.resolveId ∧
      (get_trial_id stSeen store0 0).1 = some 0 ∧
      (store0.noteVersion 0 : Int) ≤ lastSeen stSeen.processed_note_versions 0 ∧
      ((check_and_process_trial cfg0 ((fun _ => false) 0) ⟨0, TrialState.running⟩ stSeen
          store0).attempts = [] ∧
        (check_for_note_changes cfg0 (fun _ => false)
          (check_for_note_changes cfg0 (fun _ => false) stSeen store0).state
          (check_for_note_changes cfg0 (fun _ => false) stSeen store0).store).attempts = []) :=
  ⟨cacheConsistent_nil store0.resolveId, by decide, by decide,
    C1_at_most_once_per_version cfg0 (fun _ => false) stSeen store0
      ⟨0, TrialState.running⟩ 0 (cacheConsistent_nil store0.resolveId)
      (by decide) (by decide)⟩

/-- C2: when the current annotation version strictly exceeds the last-seen one
and the startup special case does not apply, the detector records the new
version in processed_note_versions after processing, also when the body holds
no recognized command. -/
theorem C2_version_recorded (cfg : Config) (tfb : Bool) (trial : Trial) (tid : Nat)
    (st : MonitorState) (store : Store)
    (hid : (get_trial_id st store trial.number).1 = some tid)
    (hv : lastSeen st.processed_note_versions trial.number < (store.noteVersion tid : Int))
    (hns : ¬(store.noteBody tid = "" ∧ lastSeen st.processed_note_versions trial.number = -1 ∧
      (store.noteVersion tid : Int) = 0)) :
    lastSeen (check_and_process_trial cfg tfb trial st store).state.processed_note_versions
      trial.number = (store.noteVersion tid : Int) :=
  step_lastSeen_recorded hid hv hns

/-- Witness for C2 at a concrete input: a note body with no command is still
marked processed at its new version 1. -/
theorem C2_witness :
    (get_trial_id st0 storeNoCmd 0).1 = some 0 ∧
      lastSeen st0.processed_note_versions 0 < (storeNoCmd.noteVersion 0 : Int) ∧
      ¬(storeNoCmd.noteBody 0 = "" ∧ lastSeen st0.processed_note_versions 0 = -1 ∧
        (storeNoCmd.noteVersion 0 : Int) = 0) ∧
      lastSeen (check_and_process_trial cfg0 false ⟨0, TrialState.running⟩ st0
        storeNoCmd).state.processed_note_versions 0 = (storeNoCmd.noteVersion 0 : Int) :=
  ⟨by decide, by decide, by decide,
    C2_version_recorded cfg0 false ⟨0, TrialState.running⟩ 0 st0 storeNoCmd
      (by decide) (by decide) (by decide)⟩

/-- C3: with the state re-read from storage, the engine returns AlreadyInState
with no mutation when it equals the target, returns Illegal (warning logged)
with no mutation when it is otherwise outside RUNNING, WAITING, COMPLETE, and
study.tell is issued exactly when the state is changeable, differs from the
target, and dry-run is off. -/
theorem C3_transition_guards (cfg : Config) (tfb : Bool) (n : Nat) (target : TrialState)
    (st : MonitorState) (store : Store) (cur : TrialState)
    (hread : (get_trial_state_from_storage st store n).1 = some cur) :
    ((change_trial_state cfg tfb n target st store).outcome = Outcome.alreadyInState ↔
        cur = target) ∧
      ((change_trial_state cfg tfb n target st store).outcome = Outcome.illegal ↔
        (¬ cur = target ∧ changeable.contains cur = false)) ∧
      ((change_trial_state cfg tfb n target st store).tellCalled =
        (!(cur == target) && changeable.contains cur && !cfg.dry_run)) ∧
      ((change_trial_state cfg tfb n target st store).store = store ∨
        (change_trial_state cfg tfb n target st store).tellCalled = true) := by
  rcases h : get_trial_state_from_storage st store n with ⟨cur?, st1⟩
  rw [h] at hread
  simp only [Prod.fst] at hread
  cases cur? with
  | none => cases hread
  | some c =>
    have hc : c = cur := Option.some.inj hread
    subst hc
    rw [cts_eq_of_read h]
    split_ifs with h1 h2 h3 h4 <;> refine ⟨?_, ?_, ?_, ?_⟩ <;> simp_all

/-- Witness for C3 at a concrete input: requesting FAILED on a trial whose
stored state is PRUNED yields Illegal with no mutation. -/
theorem C3_witness :
    (get_trial_state_from_storage st0 storeTerminal 0).1 = some TrialState.pruned ∧
      (((change_trial_state cfg0 false 0 TrialState.failed st0 storeTerminal).outcome =
          Outcome.alreadyInState ↔ TrialState.pruned = TrialState.failed) ∧
        ((change_trial_state cfg0 false 0 TrialState.failed st0 storeTerminal).outcome =
          Outcome.illegal ↔ (¬ TrialState.pruned = TrialState.failed ∧
            changeable.contains TrialState.pruned = false)) ∧
        ((change_trial_state cfg0 false 0 TrialState.failed st0 storeTerminal).tellCalled =
          (!(TrialState.pruned == TrialState.failed) &&
            changeable.contains TrialState.pruned && !cfg0.dry_run)) ∧
        ((change_trial_state cfg0 false 0 TrialState.failed st0 storeTerminal).store =
            storeTerminal ∨
          (change_trial_state cfg0 false 0 TrialState.failed st0 storeTerminal).tellCalled =
            true)) :=
  ⟨by decide,
    C3_transition_guards cfg0 false 0 TrialState.failed st0 storeTerminal
      TrialState.pruned (by decide)⟩

/-- C4: with dry-run enabled the monitor never issues study.tell and leaves the
stored trial states unchanged over any number of cycles; for a RUNNING trial
with a PRUNE command the engine logs the intended change (Applied) without
mutating. -/
theorem C4_dry_run_purity (cfg : Config) (tf : Nat → Bool) (tfb : Bool) (k : Nat)
    (st : MonitorState) (store : Store) (n : Nat)
    (hdry : cfg.dry_run = true)
    (hread : (get_trial_state_from_storage st store n).1 = some TrialState.running) :
    (iterateCycles cfg tf k st store).2 = store ∧
      (change_trial_state cfg tfb n TrialState.pruned st store).tellCalled = false ∧
      (change_trial_state cfg tfb n TrialState.pruned st store).outcome = Outcome.applied ∧
      (change_trial_state cfg tfb n TrialState.pruned st store).store = store := by
  refine ⟨iterate_store_dry tf hdry k st store, ?_⟩
  rcases h : get_trial_state_from_storage st store n with ⟨cur?, st1⟩
  rw [h] at hread
  simp only [Prod.fst] at hread
  cases cur? with
  | none => cases hread
  | some c =>
    have hc : c = TrialState.running := Option.some.inj hread
    subst hc
    rw [cts_eq_of_read h, if_neg (by decide), if_neg (by decide), if_pos hdry]
    exact ⟨rfl, rfl, rfl⟩

/-- Witness for C4 at a concrete input: one RUNNING trial annotated PRUNE under
dry-run; after 3 cycles the store is unchanged and the engine reports Applied
without calling study.tell. -/
theorem C4_witness :
    cfgDry.dry_run = true ∧
      (get_trial_state_from_storage st0 store0 0).1 = some TrialState.running ∧
      ((iterateCycles cfgDry (fun _ => false) 3 st0 store0).2 = store0 ∧
        (change_trial_state cfgDry false 0 TrialState.pruned st0 store0).tellCalled = false ∧
        (change_trial_state cfgDry false 0 TrialState.pruned st0 store0).outcome =
          Outcome.applied ∧
        (change_trial_state cfgDry false 0 TrialState.pruned st0 store0).store = store0) :=
  ⟨rfl, by decide,
    C4_dry_run_purity cfgDry (fun _ => false) false 3 st0 store0 0 rfl (by decide)⟩

/-- C5: when study.tell raises, the engine returns Failed without the
verification re-read and without a store change, and the detector still
records the annotation version as processed, so the failed command is
consumed. -/
theorem C5_tell_failure_consumed (cfg : Config) (trial : Trial) (st : MonitorState)
    (store : Store) (tid : Nat) (cur target : TrialState)
    (hdry : cfg.dry_run = false)
    (hread : (get_trial_state_from_storage st store trial.number).1 = some cur)
    (hne : (cur == target) = false)
    (hch : changeable.contains cur = true)
    (hid : (get_trial_id st store trial.number).1 = some tid)
    (hv : lastSeen st.processed_note_versions trial.number < (store.noteVersion tid : Int))
    (hns : ¬(store.noteBody tid = "" ∧ lastSeen st.processed_note_versions trial.number = -1 ∧
      (store.noteVersion tid : Int) = 0))
    (hcmd : parse_command cfg (store.noteBody tid) = Command.prune) :
    (change_trial_state cfg true trial.number target st store).outcome = Outcome.failed ∧
      (change_trial_state cfg true trial.number target st store).verifyRead = false ∧
      (change_trial_state cfg true trial.number target st store).tellCalled = true ∧
      (change_trial_state cfg true trial.number target st store).store = store ∧
      lastSeen (check_and_process_trial cfg true trial st
        store).state.processed_note_versions trial.number = (store.noteVersion tid : Int) ∧
      (check_and_process_trial cfg true trial st store).attempts =
        [(trial.number, TrialState.pruned)] := by
  rcases h : get_trial_state_from_storage st store trial.number with ⟨cur?, st1⟩
  rw [h] at hread
  simp only [Prod.fst] at hread
  cases cur? with
  | none => cases hread
  | some c =>
    have hc : c = cur := Option.some.inj hread
    subst hc
    have heq : change_trial_state cfg true trial.number target st store =
        ⟨st1, store, Outcome.failed, true, false⟩ := by
      rw [cts_eq_of_read h,
        if_neg (fun hcontra => by rw [hcontra] at hne; simp at hne),
        if_neg (by rw [hch]; decide), if_neg (by rw [hdry]; decide), if_pos rfl]
    rw [heq]
    exact ⟨rfl, rfl, rfl, rfl, step_lastSeen_recorded hid hv hns,
      step_attempts_prune hid hv hns hcmd⟩

/-- Witness for C5 at a concrete input: the single tell call raises, the engine
reports Failed without verification or store change, yet version 1 is recorded
and the prune attempt was made. -/
theorem C5_witness :
    cfg0.dry_run = false ∧
      (get_trial_state_from_storage st0 store0 0).1 = some TrialState.running ∧
      (TrialState.running == TrialState.pruned) = false ∧
      changeable.contains TrialState.running = true ∧
      (get_trial_id st0 store0 0).1 = some 0 ∧
      lastSeen st0.processed_note_versions 0 < (store0.noteVersion 0 : Int) ∧
      ¬(store0.noteBody 0 = "" ∧ lastSeen st0.processed_note_versions 0 = -1 ∧
        (store0.noteVersion 0 : Int) = 0) ∧
      parse_command cfg0 (store0.noteBody 0) = Command.prune ∧
      ((change_trial_state cfg0 true 0 TrialState.pruned st0 store0).outcome =
          Outcome.failed ∧
        (change_trial_state cfg0 true 0 TrialState.pruned st0 store0).verifyRead = false ∧
        (change_trial_state cfg0 true 0 TrialState.pruned st0 store0).tellCalled = true ∧
        (change_trial_state cfg0 true 0 TrialState.pruned st0 store0).store = store0 ∧
        lastSeen (check_and_process_trial cfg0 true ⟨0, TrialState.running⟩ st0
          store0).state.processed_note_versions 0 = (store0.noteVersion 0 : Int) ∧
        (check_and_process_trial cfg0 true ⟨0, TrialState.running⟩ st0 store0).attempts =
          [(0, TrialState.pruned)]) :=
  ⟨rfl, by decide, by decide, by decide, by decide, by decide, by decide, by decide,
    C5_tell_failure_consumed cfg0 ⟨0, TrialState.running⟩ st0 store0 0
      TrialState.running TrialState.pruned rfl (by decide) (by decide) (by decide)
      (by decide) (by decide) (by decide) (by decide)⟩

/-- C6: code behavior at the failing input of the cache-eviction claim.  One
RUNNING trial (ordinal 0, identifier 0) with note PRUNE at version 1: during
cycle 1 the monitor transitions it to PRUNED, yet after the next detector pass
the identifier-cache entry for ordinal 0 is still present, contradicting the
claim that it is evicted and absent on the next pass. -/
theorem C6_cache_entry_retained :
    (check_for_note_changes cfg0 (fun _ => false) st0 store0).store.stateOf 0 =
        some TrialState.pruned ∧
      alookup (check_for_note_changes cfg0 (fun _ => false)
        (check_for_note_changes cfg0 (fun _ => false) st0 store0).state
        (check_for_note_changes cfg0 (fun _ => false) st0 store0).store).state.trial_id_cache
        0 = some 0 := by
  decide

/-- C7 counterexample: with the configurable prune pattern (PRUNE)? (which
matches the empty string, as Python re allows) an empty annotation body is
classified PRUNE, not NONE, so the claim fails as stated for arbitrary
patterns. -/
theorem C7_empty_body_counterexample :
    parse_command ⟨Regex.alt pat_PRUNE Regex.eps, pat_FAIL, false, false⟩ "" =
        Command.prune ∧
      ¬ parse_command ⟨Regex.alt pat_PRUNE Regex.eps, pat_FAIL, false, false⟩ "" =
        Command.none := by
  decide

/-- C7 amended: for every pair of configured patterns neither of which matches
the empty string (in particular the defaults PRUNE and FAIL), an empty
annotation body yields NONE. -/
theorem C7_empty_body_none (cfg : Config)
    (hp : cfg.prunePat.search "" = false) (hf : cfg.failPat.search "" = false) :
    parse_command cfg "" = Command.none := by
  unfold parse_command
  rw [hp, hf]
  rfl

/-- Witness for the amended C7 with the default PRUNE and FAIL patterns. -/
theorem C7_witness :
    pat_PRUNE.search "" = false ∧ pat_FAIL.search "" = false ∧
      parse_command cfg0 "" = Command.none :=
  ⟨by decide, by decide, C7_empty_body_none cfg0 (by decide) (by decide)⟩

/-- C8: the recorded last-seen version of every trial ordinal (absent entries
reading as -1) is non-decreasing across any sequence of detector invocations,
both along the monitor-evolved store and along any externally supplied
sequence of store snapshots. -/
theorem C8_version_monotone (cfg : Config) (tf : Nat → Bool) (st : MonitorState)
    (store : Store) (n k : Nat) (snaps : List Store) :
    lastSeen st.processed_note_versions n ≤
        lastSeen (iterateCycles cfg tf k st store).1.processed_note_versions n ∧
      lastSeen st.processed_note_versions n ≤
        lastSeen (runSnapshots cfg tf snaps st).processed_note_versions n :=
  ⟨iterate_processed_mono cfg tf k st store n, snapshots_processed_mono cfg tf snaps st n⟩

/-- C9: whenever the prune pattern matches the processed note body, the parser
classifies it PRUNE (the fail pattern is not consulted) and the transition
engine is invoked with target PRUNED, never FAILED. -/
theorem C9_prune_precedence (cfg : Config) (tfb : Bool) (trial : Trial) (tid : Nat)
    (st : MonitorState) (store : Store)
    (hid : (get_trial_id st store trial.number).1 = some tid)
    (hv : lastSeen st.processed_note_versions trial.number < (store.noteVersion tid : Int))
    (hns : ¬(store.noteBody tid = "" ∧ lastSeen st.processed_note_versions trial.number = -1 ∧
      (store.noteVersion tid : Int) = 0))
    (hs : cfg.prunePat.search (store.noteBody tid) = true) :
    parse_command cfg (store.noteBody tid) = Command.prune ∧
      (check_and_process_trial cfg tfb trial st store).attempts =
        [(trial.number, TrialState.pruned)] := by
  have hp : parse_command cfg (store.noteBody tid) = Command.prune := by
    unfold parse_command
    rw [hs]
    rfl
  exact ⟨hp, step_attempts_prune hid hv hns hp⟩

/-- Witness for C9 at the body "please PRUNE, do not FAIL", which matches both
default patterns: the result is PRUNE and the sole attempt targets PRUNED. -/
theorem C9_witness :
    (get_trial_id st0 storeBoth 0).1 = some 0 ∧
      lastSeen st0.processed_note_versions 0 < (storeBoth.noteVersion 0 : Int) ∧
      ¬(storeBoth.noteBody 0 = "" ∧ lastSeen st0.processed_note_versions 0 = -1 ∧
        (storeBoth.noteVersion 0 : Int) = 0) ∧
      pat_PRUNE.search (storeBoth.noteBody 0) = true ∧
      pat_FAIL.search (storeBoth.noteBody 0) = true ∧
      (parse_command cfg0 (storeBoth.noteBody 0) = Command.prune ∧
        (check_and_process_trial cfg0 false ⟨0, TrialState.running⟩ st0
          storeBoth).attempts = [(0, TrialState.pruned)]) :=
  ⟨by decide, by decide, by decide, by decide, by decide,
    C9_prune_precedence cfg0 false ⟨0, TrialState.running⟩ 0 st0 storeBoth
      (by decide) (by decide) (by decide) (by decide)⟩

/-- C10: two detector runs over the same observed store snapshots that differ
only in the dry_run flag evolve the monitor detection state identically, both
after a single cycle and along any snapshot sequence. -/
theorem C10_dry_run_noninterference (cfg : Config) (a b : Bool) (tf : Nat → Bool)
    (snaps : List Store) (st : MonitorState) (store : Store) :
    (check_for_note_changes { cfg with dry_run := a } tf st store).state =
        (check_for_note_changes { cfg with dry_run := b } tf st store).state ∧
      runSnapshots { cfg with dry_run := a } tf snaps st =
        runSnapshots { cfg with dry_run := b } tf snaps st :=
  ⟨cycle_state_indep cfg a b tf st store, runSnapshots_indep cfg a b tf snaps st⟩

end HumanTrialMonitor
